import Mathlib

/-! # Verification of the LMT frame-to-time binning and chunked aggregation engine

Shallow embedding of the core of `xmousset/lmt-analysis`:

* `Binner` / `DataProcessingBinner` (Clock, Bin Planner, window validation) from
  `src/LMT/dim_c_brains/scripts/binner.py` and
  `src/LMT/dim_c_brains/scripts/data_extractor.py`;
* `Binner.split_iterator_in_chunks` (Chunk Planner);
* `DataFrameConstructor.get_df_activity` (UNDETECTED_DURATION field),
  `DataFrameConstructor.get_df_sensors` and
  `DataFrameConstructor.calculate_sensors_statistics` (sensor aggregation).

Timestamps are modelled as exact rational milliseconds (the Python code uses
float ms / pandas ns timestamps; every concrete input used below evaluates to
the same values in both models).  Python's `round` (round-half-to-even) is
modelled by `pyRound`.
-/

namespace LMT

/-- Python's builtin `round` on an exact rational: round half to even. -/
def pyRound (q : ℚ) : ℤ :=
  if q - ⌊q⌋ < 1/2 then ⌊q⌋
  else if 1/2 < q - ⌊q⌋ then ⌊q⌋ + 1
  else if ⌊q⌋ % 2 = 0 then ⌊q⌋ else ⌊q⌋ + 1

/-! ## Clock and Bin Planner (`Binner.__init__` / `set_parameters` / `calculate_bin_df`)

`Binner` state that the bin computation depends on: `last_frame`,
`last_timestamp` (ms), `fps` and `bin_size` (frames).  `start_frame` /
`end_frame` of the analysis window do not enter `calculate_bin_df`.
-/

structure BinnerCfg where
  lastFrame : ℤ
  lastTimestamp : ℚ  -- ms
  fps : ℕ
  binSize : ℕ
deriving Repr

/-- Timestamp of frame 0 in ms:
`bin_0["TIMESTAMP"] = last_timestamp - (last_frame / fps * 1000)`. -/
def bin0Timestamp (c : BinnerCfg) : ℚ :=
  c.lastTimestamp - (c.lastFrame : ℚ) / (c.fps : ℚ) * 1000

/-- Clock conversion `Binner.frame_to_time`:
`bin_0["TIMESTAMP"] + framenumber / fps * 1000`,
as a timestamp in ms. -/
def frame_to_time (c : BinnerCfg) (framenumber : ℤ) : ℚ :=
  bin0Timestamp c + (framenumber : ℚ) / (c.fps : ℚ) * 1000

/-- Clock conversion `Binner.time_to_frame`:
`round((pd_datetime - self.bin_0["DATETIME"]).total_seconds() * fps)`,
where `bin_0["DATETIME"] = frame_to_time(0)` and `total_seconds` is the
difference in ms divided by 1000. -/
def time_to_frame (c : BinnerCfg) (t : ℚ) : ℤ :=
  pyRound ((t - frame_to_time c 0) / 1000 * (c.fps : ℚ))

/-- Model of `pd.Timestamp.floor` with frequency given in whole minutes:
floor a ms timestamp to a whole multiple
of `n` minutes (pandas floors fixed frequencies relative to the epoch). -/
def floorToMinutes (t : ℚ) (n : ℕ) : ℚ :=
  (⌊t / ((n : ℚ) * 60000)⌋ : ℚ) * ((n : ℚ) * 60000)

/-- Lines 123-127 of `calculate_bin_df`: the calendar-aligned anchor frame
`start_frame_bin_1 = time_to_frame(frame_to_time(bin_size).floor(f"{bin_size // (60*fps)}min"))`. -/
def start_frame_bin_1 (c : BinnerCfg) : ℤ :=
  time_to_frame c (floorToMinutes (frame_to_time c (c.binSize : ℤ)) (c.binSize / (60 * c.fps)))

/-- The first enumerated raw bin start: `f = start_frame_bin_1 - bin_size`. -/
def firstBinStart (c : BinnerCfg) : ℤ :=
  start_frame_bin_1 c - (c.binSize : ℤ)

/-- Number of iterations of the loop
`f = firstBinStart; while f < last_frame: append f; f += bin_size`,
i.e. the number of naturals `k` with `firstBinStart + k * binSize < lastFrame`. -/
def numBins (c : BinnerCfg) : ℕ :=
  ((c.lastFrame - firstBinStart c).toNat + c.binSize - 1) / c.binSize

/-- The raw start frame of the `k`-th enumerated bin. -/
def rawBinStart (c : BinnerCfg) (k : ℕ) : ℤ :=
  firstBinStart c + (k : ℤ) * (c.binSize : ℤ)

/-- The list `bin_start_frames` built by the while loop in `calculate_bin_df`
(lines 129-134). -/
def bin_start_frames (c : BinnerCfg) : List ℤ :=
  (List.range (numBins c)).map (rawBinStart c)

/-- One row of `bin_df`. -/
structure BinRow where
  START_FRAME : ℤ
  END_FRAME : ℤ
  START_TIME : ℚ
  END_TIME : ℚ
deriving Repr, DecidableEq

/-- Lines 136-152 of `calculate_bin_df`, the row built for a raw start frame `f`:
`START_FRAME = f if f > 0 else 1`,
`END_FRAME = f + bin_size - 1 if f <= last_frame else last_frame`. -/
def binRow (c : BinnerCfg) (f : ℤ) : BinRow :=
  { START_FRAME := if 0 < f then f else 1
    END_FRAME := if f ≤ c.lastFrame then f + (c.binSize : ℤ) - 1 else c.lastFrame
    START_TIME := frame_to_time c f
    END_TIME := frame_to_time c (f + (c.binSize : ℤ) - 1) }

/-- The full `bin_df` of `Binner.calculate_bin_df`. -/
def calculate_bin_df (c : BinnerCfg) : List BinRow :=
  (bin_start_frames c).map (binRow c)

/-- The `(START_FRAME, END_FRAME)` columns of `bin_df`. -/
def binFramePairs (c : BinnerCfg) : List (ℤ × ℤ) :=
  (calculate_bin_df c).map (fun r => (r.START_FRAME, r.END_FRAME))

/-- A configuration valid in the sense of claim C1: `fps >= 1`, bin size at
least one minute in frames, and a nondegenerate recording (the default window
`1 = start_frame < end_frame = last_frame` requires `last_frame >= 2`). -/
def ValidCfg (c : BinnerCfg) : Prop :=
  1 ≤ c.fps ∧ 60 * c.fps ≤ c.binSize ∧ 2 ≤ c.lastFrame

/-! ### Concrete configurations

`cfg3` is Scenario A of the spec: a one-day recording at 30 Hz whose last
frame 2,592,000 is stamped at midnight of day 2 (epoch ms 86,400,000), with
15-minute bins (27,000 frames).  The derived timestamp of frame 0 is epoch 0.

`cfgA` is a 30,000-frame recording whose frame 0 is stamped at epoch 0
(`last_timestamp = 30000 / 30 * 1000 = 1,000,000`), with 15-minute bins: the
last bin of `bin_df` runs past `last_frame`.

`cfgB` stamps frame 0 at epoch ms 899,999, one millisecond before a 15-minute
boundary: the calendar anchor `start_frame_bin_1` rounds to frame 0 and the
first `bin_df` row is the degenerate `(START 1, END -1)`. -/

def cfg3 : BinnerCfg := ⟨2592000, 86400000, 30, 27000⟩

def cfgA : BinnerCfg := ⟨30000, 1000000, 30, 27000⟩

def cfgB : BinnerCfg := ⟨30000, 1899999, 30, 27000⟩

/-! ## Chunk Planner (`Binner.split_iterator_in_chunks`)

The Python loop keeps the chunk currently being filled as
`chunked_iterator[-1]` and the variable `chunk_start`; `chunkLoop` carries
both explicitly.  Python raises `IndexError` on an empty `bin_iterator`
(`bin_iterator[0]`), so the model follows the claims in treating non-empty
input only (the `[]` case of `split_iterator_in_chunks` is unreachable
there). -/

def chunkLoop (chunk_size chunkStart : ℤ) (cur : List (ℤ × ℤ)) :
    List (ℤ × ℤ) → List (List (ℤ × ℤ))
  | [] => [cur]
  | b :: rest =>
    if b.2 - chunkStart + 1 < chunk_size then
      chunkLoop chunk_size chunkStart (cur ++ [b]) rest
    else
      cur :: chunkLoop chunk_size b.1 [b] rest

/-- Model of `Binner.split_iterator_in_chunks(chunk_size, bin_iterator)`. -/
def split_iterator_in_chunks (chunk_size : ℤ) : List (ℤ × ℤ) → List (List (ℤ × ℤ))
  | [] => []
  | b :: rest => chunkLoop chunk_size b.1 [b] rest
/-! ## Analysis window validation (`set_parameters`, binner.py lines 92-115)

`validateFrameLimits` returns the normalised `(start_frame, end_frame)` pair,
or `none` exactly when `set_parameters` raises `ValueError` while processing
the window arguments (the spec's `InvalidConfiguration`). -/

def validateFrameLimits (lastFrame : ℤ) (sf ef : Option ℤ) : Option (ℤ × ℤ) :=
  match (match sf with
         | none => some 1
         | some s => if s < 1 then some 1 else if lastFrame < s then none else some s) with
  | none => none
  | some s1 =>
    match (match ef with
           | none => some lastFrame
           | some e =>
              if lastFrame < e then some lastFrame else if e < 1 then none else some e) with
    | none => none
    | some e1 => if e1 ≤ s1 then none else some (s1, e1)

/-- The start frame after normalisation: `None` and values `< 1` become 1. -/
def normStart (sf : Option ℤ) : ℤ :=
  match sf with
  | none => 1
  | some s => max s 1

/-- The end frame after normalisation: `None` and values `> lastFrame` become
`lastFrame`. -/
def normEnd (lastFrame : ℤ) (ef : Option ℤ) : ℤ :=
  match ef with
  | none => lastFrame
  | some e => min e lastFrame
/-! ## Activity rows (`DataFrameConstructor.get_df_activity`, claim C8) -/

/-- The `UNDETECTED_DURATION` field of an activity row (data_extractor.py
lines 679-686):
`(bin_end - bin_start - stop_dur - (move_iso_dur + move_inc_dur)) / 30 / 60`
minutes, written to the row exactly as computed. -/
def undetected_duration (binStart binEnd stopDur moveIsoDur moveIncDur : ℤ) : ℚ :=
  ((binEnd - binStart - stopDur - (moveIsoDur + moveIncDur) : ℤ) : ℚ) / 30 / 60
/-! ## Sensor table construction (`DataFrameConstructor.get_df_sensors`, claim C9) -/

def sensors_init : List String :=
  ["TEMPERATURE", "HUMIDITY", "SOUND", "LIGHTVISIBLE", "LIGHTVISIBLEANDIR"]

/-- Python's
`for sensor in sensors: if sensor not in sensors_data: sensors.remove(sensor)`
(data_extractor.py lines 819-821): the `for` walks the list by index while
`remove` shifts later elements left, so the element immediately after a
removed one is never examined and survives even if unavailable. -/
def removeMissingSensors (avail : String → Bool) : List String → List String
  | [] => []
  | [x] => if avail x then [x] else []
  | x :: y :: rest =>
    if avail x then x :: removeMissingSensors avail (y :: rest)
    else y :: removeMissingSensors avail rest

/-- Outcome of `get_df_sensors` for the per-bin sensor columns. -/
inductive SensorsOutcome (α : Type) where
  /-- the `return None` path after printing "No sensor data available". -/
  | unavailable : SensorsOutcome α
  /-- an uncaught `KeyError` while building the row from `sensors_data`. -/
  | keyError : SensorsOutcome α
  /-- the sensor column groups emitted for a row, in sensor order. -/
  | rows (cols : List (String × α)) : SensorsOutcome α
deriving DecidableEq, Repr

/-- Model of `DataFrameConstructor.get_df_sensors` (data_extractor.py lines 778-840),
abstracted over the per-sensor query: `data s = some v` when the SELECT for
sensor `s` succeeds with samples `v`, `none` when it raises and the sensor is
skipped from `sensors_data`.  Every row carries the same sensor column groups,
so one row stands for all bins.  If no sensor succeeded the function returns
`None`; otherwise each sensor still left in the (mutated) list is looked up in
`sensors_data`, and a sensor missing there raises `KeyError`. -/
def get_df_sensors (data : String → Option α) : SensorsOutcome α :=
  if sensors_init.all (fun s => (data s).isNone) then .unavailable
  else
    match (removeMissingSensors (fun s => (data s).isSome) sensors_init).mapM
        (fun s => (data s).map (fun v => (s, v))) with
    | none => .keyError
    | some cols => .rows cols

/-- No two adjacent sensors of the list are both unavailable. -/
def noTwoAdjacentMissing (avail : String → Bool) : List String → Bool
  | x :: y :: rest => (avail x || avail y) && noTwoAdjacentMissing avail (y :: rest)
  | _ => true

/-- A `data` query with two adjacent unavailable sensors (HUMIDITY and SOUND). -/
def dataTwoMissing : String → Option ℤ := fun s =>
  if s = "HUMIDITY" ∨ s = "SOUND" then none else some 0

/-- A `data` query with the single sensor HUMIDITY unavailable. -/
def dataOneMissing : String → Option ℤ := fun s =>
  if s = "HUMIDITY" then none else some 0

/-- A `data` query with every sensor unavailable. -/
def dataAllMissing : String → Option ℤ := fun _ => none
/-! ## Sensor statistics (`DataFrameConstructor.calculate_sensors_statistics`,
claim C10)

The Python loop walks `frame_values` with two indices:
```
i_min = 0; i_max = 0
for _, f_max in bin_iterator:
    while frame_values[i_max] < f_max: i_max += 1
    arr = np.array(sensor_values[i_min : i_max + 1])
    i_min = i_max + 1
```
`binSliceStep` performs one bin's `while` plus slice: the state is the sample
stream from index `i_max` on, together with `consumed = (i_min = i_max + 1)`
(after the first bin the sample at `i_max` has always been emitted already).
`none` models the `IndexError` when the `while` runs past the end. -/

def binSliceStep (f_max : ℤ) : Bool → List (ℤ × ℚ) → Option (List ℚ × List (ℤ × ℚ))
  | _, [] => none
  | consumed, (f, v) :: tl =>
    if f < f_max then
      (binSliceStep f_max false tl).map
        (fun p => ((if consumed then p.1 else v :: p.1), p.2))
    else
      some ((if consumed then [] else [v]), (f, v) :: tl)

/-- The bin loop of the slicing: one slice per bin, threading the stream and
the consumed flag. -/
def binSlicesGo (consumed : Bool) (samples : List (ℤ × ℚ)) :
    List (ℤ × ℤ) → Option (List (List ℚ))
  | [] => some []
  | b :: bins =>
    match binSliceStep b.2 consumed samples with
    | none => none
    | some (s, rest) => (binSlicesGo true rest bins).map (fun l => s :: l)

/-- The slices of `sensor_values` that the statistics loop assigns to each bin
of `bin_iterator`, in order (initially `i_min = i_max = 0`: `consumed` is
false). -/
def binSlices (samples : List (ℤ × ℚ)) (bins : List (ℤ × ℤ)) : Option (List (List ℚ)) :=
  binSlicesGo false samples bins

/-- One per-bin statistics dict (data_extractor.py lines 761-775). -/
structure SensorStats where
  MEAN : ℚ
  MIN : ℚ
  MAX : ℚ
  STD : ℚ
  SEM : ℚ
deriving Repr, DecidableEq

/-- The statistics computed for one bin's slice `arr`.  `npStd arr` and
`npSem arr` stand for the float computations `arr.std()` and
`arr.std() / np.sqrt(len(arr))`, which involve square roots and are abstracted
as parameters: the code only invokes them in its `len(arr) > 1` branches, the
`else` branches being the literal `0.0`. -/
def sensorStats (npStd npSem : List ℚ → ℚ) (arr : List ℚ) : SensorStats :=
  { MEAN := arr.sum / (arr.length : ℚ)
    MIN := (arr.min?).getD 0
    MAX := (arr.max?).getD 0
    STD := if 1 < arr.length then npStd arr else 0
    SEM := if 1 < arr.length then npSem arr else 0 }

/-- Model of `DataFrameConstructor.calculate_sensors_statistics`: one statistics dict
per bin, over the slices the index loop assigns to the bins. -/
def calculate_sensors_statistics (npStd npSem : List ℚ → ℚ)
    (samples : List (ℤ × ℚ)) (bins : List (ℤ × ℤ)) : Option (List SensorStats) :=
  (binSlices samples bins).map (List.map (sensorStats npStd npSem))


/-! ## Theorems -/

/-! ### Basic facts about `pyRound` and `floorToMinutes` -/

theorem pyRound_intCast (z : ℤ) : pyRound (z : ℚ) = z := by
  simp [pyRound]

theorem floor_le_pyRound (q : ℚ) : ⌊q⌋ ≤ pyRound q := by
  unfold pyRound
  split_ifs <;> omega

theorem pyRound_cast_le (q : ℚ) : (pyRound q : ℚ) ≤ q + 1/2 := by
  have h0 : (⌊q⌋ : ℚ) ≤ q := Int.floor_le q
  unfold pyRound
  split_ifs with h1 h2 h3 <;> push_cast <;> linarith

theorem pyRound_nonneg {q : ℚ} (h : 0 ≤ q) : 0 ≤ pyRound q := by
  have := floor_le_pyRound q
  have h0 : 0 ≤ ⌊q⌋ := Int.floor_nonneg.mpr h
  omega

theorem pyRound_le_int {q : ℚ} {z : ℤ} (h : q ≤ (z : ℚ)) : pyRound q ≤ z := by
  have h1 : (pyRound q : ℚ) ≤ (z : ℚ) + 1/2 := le_trans (pyRound_cast_le q) (by linarith)
  have h2 : (pyRound q : ℚ) < (z : ℚ) + 1 := by linarith
  exact_mod_cast Int.lt_add_one_iff.mp (by exact_mod_cast h2)

theorem floorToMinutes_le (t : ℚ) {n : ℕ} (hn : 0 < n) : floorToMinutes t n ≤ t := by
  have hP : (0 : ℚ) < (n : ℚ) * 60000 := by positivity
  have := Int.floor_le (t / ((n : ℚ) * 60000))
  calc (⌊t / ((n : ℚ) * 60000)⌋ : ℚ) * ((n : ℚ) * 60000)
      ≤ t / ((n : ℚ) * 60000) * ((n : ℚ) * 60000) := by
        exact mul_le_mul_of_nonneg_right this (le_of_lt hP)
    _ = t := div_mul_cancel₀ t (ne_of_gt hP)

theorem floorToMinutes_mono {t t' : ℚ} (n : ℕ) (h : t ≤ t') :
    floorToMinutes t n ≤ floorToMinutes t' n := by
  rcases Nat.eq_zero_or_pos n with h0 | h0
  · simp [floorToMinutes, h0]
  have hP : (0 : ℚ) < (n : ℚ) * 60000 := by positivity
  have hd : t / ((n : ℚ) * 60000) ≤ t' / ((n : ℚ) * 60000) :=
    (div_le_div_iff_of_pos_right hP).mpr h
  have : ⌊t / ((n : ℚ) * 60000)⌋ ≤ ⌊t' / ((n : ℚ) * 60000)⌋ := Int.floor_le_floor hd
  exact mul_le_mul_of_nonneg_right (by exact_mod_cast this) (le_of_lt hP)

theorem floorToMinutes_add_period (t : ℚ) {n : ℕ} (hn : 0 < n) :
    floorToMinutes (t + (n : ℚ) * 60000) n = floorToMinutes t n + (n : ℚ) * 60000 := by
  have hP : (0 : ℚ) < (n : ℚ) * 60000 := by positivity
  have : (t + (n : ℚ) * 60000) / ((n : ℚ) * 60000) = t / ((n : ℚ) * 60000) + 1 := by
    field_simp
  unfold floorToMinutes
  rw [this, Int.floor_add_one]
  push_cast
  ring

theorem lt_floorToMinutes_add_period (t : ℚ) {n : ℕ} (hn : 0 < n) :
    t < floorToMinutes t n + (n : ℚ) * 60000 := by
  have hP : (0 : ℚ) < (n : ℚ) * 60000 := by positivity
  have h := Int.lt_floor_add_one (t / ((n : ℚ) * 60000))
  have : t / ((n : ℚ) * 60000) * ((n : ℚ) * 60000) <
      ((⌊t / ((n : ℚ) * 60000)⌋ : ℚ) + 1) * ((n : ℚ) * 60000) :=
    mul_lt_mul_of_pos_right h hP
  calc t = t / ((n : ℚ) * 60000) * ((n : ℚ) * 60000) := (div_mul_cancel₀ t (ne_of_gt hP)).symm
    _ < ((⌊t / ((n : ℚ) * 60000)⌋ : ℚ) + 1) * ((n : ℚ) * 60000) := this
    _ = floorToMinutes t n + (n : ℚ) * 60000 := by unfold floorToMinutes; ring

/-! ### Bounds on the calendar anchor `start_frame_bin_1` -/

theorem frame_to_time_sub_zero (c : BinnerCfg) (f : ℤ) :
    frame_to_time c f - frame_to_time c 0 = (f : ℚ) / (c.fps : ℚ) * 1000 := by
  simp [frame_to_time]

/-- The anchor never exceeds `bin_size`: flooring only moves the reference
timestamp backwards. -/
theorem start_frame_bin_1_le_binSize (c : BinnerCfg)
    (hfps : 1 ≤ c.fps) (hbin : 60 * c.fps ≤ c.binSize) :
    start_frame_bin_1 c ≤ (c.binSize : ℤ) := by
  have hfpsQ : (0 : ℚ) < (c.fps : ℚ) := by exact_mod_cast hfps
  have hN : 0 < c.binSize / (60 * c.fps) :=
    Nat.one_le_div_iff (by positivity) |>.mpr hbin
  have hfl : floorToMinutes (frame_to_time c (c.binSize : ℤ)) (c.binSize / (60 * c.fps)) ≤
      frame_to_time c (c.binSize : ℤ) := floorToMinutes_le _ hN
  apply pyRound_le_int
  have : frame_to_time c (c.binSize : ℤ) - frame_to_time c 0 =
      (c.binSize : ℚ) / (c.fps : ℚ) * 1000 := frame_to_time_sub_zero c _
  have harg : (floorToMinutes (frame_to_time c (c.binSize : ℤ)) (c.binSize / (60 * c.fps)) -
      frame_to_time c 0) / 1000 * (c.fps : ℚ) ≤
      ((c.binSize : ℚ) / (c.fps : ℚ) * 1000) / 1000 * (c.fps : ℚ) := by
    have h1 : floorToMinutes (frame_to_time c (c.binSize : ℤ)) (c.binSize / (60 * c.fps)) -
        frame_to_time c 0 ≤ (c.binSize : ℚ) / (c.fps : ℚ) * 1000 := by linarith
    have h2 := div_le_div_of_nonneg_right (c := (1000 : ℚ)) h1 (by norm_num)
    exact mul_le_mul_of_nonneg_right h2 (by positivity)
  refine harg.trans_eq ?_
  field_simp
  ring

/-- The anchor is nonnegative: the floored reference timestamp stays strictly
after the timestamp of frame 0, because `bin_size` spans at least one whole
floor period. -/
theorem start_frame_bin_1_nonneg (c : BinnerCfg)
    (hfps : 1 ≤ c.fps) (hbin : 60 * c.fps ≤ c.binSize) :
    0 ≤ start_frame_bin_1 c := by
  have hfpsQ : (0 : ℚ) < (c.fps : ℚ) := by exact_mod_cast hfps
  set N := c.binSize / (60 * c.fps) with hNdef
  have hN : 0 < N := Nat.one_le_div_iff (by positivity) |>.mpr hbin
  set t0 := frame_to_time c 0 with ht0
  set P : ℚ := (N : ℚ) * 60000 with hP
  -- the bin duration in ms is at least one floor period
  have hNB : (N : ℚ) * (60 * (c.fps : ℚ)) ≤ (c.binSize : ℚ) := by
    have := Nat.div_mul_le_self c.binSize (60 * c.fps)
    exact_mod_cast this
  have hperiod : P ≤ (c.binSize : ℚ) / (c.fps : ℚ) * 1000 := by
    rw [hP, div_mul_eq_mul_div, le_div_iff₀ hfpsQ]
    nlinarith
  have hdt0 : t0 + P ≤ frame_to_time c (c.binSize : ℤ) := by
    have := frame_to_time_sub_zero c (c.binSize : ℤ)
    push_cast at this
    linarith
  -- flooring the reference stays strictly above t0
  have hgt : t0 < floorToMinutes (frame_to_time c (c.binSize : ℤ)) N := by
    have h1 : floorToMinutes (t0 + P) N = floorToMinutes t0 N + P :=
      floorToMinutes_add_period t0 hN
    have h2 : floorToMinutes (t0 + P) N ≤ floorToMinutes (frame_to_time c (c.binSize : ℤ)) N :=
      floorToMinutes_mono N hdt0
    have h3 : t0 < floorToMinutes t0 N + P := lt_floorToMinutes_add_period t0 hN
    linarith
  apply pyRound_nonneg
  have : (0 : ℚ) ≤ floorToMinutes (frame_to_time c (c.binSize : ℤ)) N - t0 := by linarith
  positivity

/-! ### Shape of the bin table -/

theorem binFramePairs_length (c : BinnerCfg) : (binFramePairs c).length = numBins c := by
  simp [binFramePairs, calculate_bin_df, bin_start_frames]

theorem binFramePairs_getElem (c : BinnerCfg) {k : ℕ} (hk : k < numBins c) :
    (binFramePairs c)[k]? =
      some ((if 0 < rawBinStart c k then rawBinStart c k else 1),
        (if rawBinStart c k ≤ c.lastFrame
          then rawBinStart c k + (c.binSize : ℤ) - 1 else c.lastFrame)) := by
  simp [binFramePairs, calculate_bin_df, bin_start_frames, List.getElem?_map,
    List.getElem?_range, hk, binRow]

/-- Every enumerated raw start frame lies strictly before `last_frame`:
this is the guard of the `while` loop building `bin_start_frames`. -/
theorem rawBinStart_lt_lastFrame {c : BinnerCfg} (hB : 1 ≤ c.binSize)
    {k : ℕ} (hk : k < numBins c) : rawBinStart c k < c.lastFrame := by
  unfold numBins at hk
  have h1 : (k + 1) * c.binSize ≤ (c.lastFrame - firstBinStart c).toNat + c.binSize - 1 :=
    (Nat.le_div_iff_mul_le (by omega)).mp hk
  rw [Nat.succ_mul] at h1
  have h2 : k * c.binSize < (c.lastFrame - firstBinStart c).toNat := by omega
  have h3 : ((k * c.binSize : ℕ) : ℤ) < c.lastFrame - firstBinStart c := Int.lt_toNat.mp h2
  unfold rawBinStart
  push_cast at h3 ⊢
  linarith

/-- After the loop ends, one more step of `bin_size` reaches `last_frame`. -/
theorem lastFrame_le_end_of_loop (c : BinnerCfg) (hB : 1 ≤ c.binSize) :
    c.lastFrame ≤ firstBinStart c + (numBins c : ℤ) * (c.binSize : ℤ) := by
  have h1 : ((c.lastFrame - firstBinStart c).toNat + c.binSize - 1) / c.binSize <
      numBins c + 1 := by unfold numBins; omega
  have h2 : (c.lastFrame - firstBinStart c).toNat + c.binSize - 1 <
      (numBins c + 1) * c.binSize :=
    (Nat.div_lt_iff_lt_mul (by omega)).mp h1
  rw [Nat.succ_mul] at h2
  have h3 : (c.lastFrame - firstBinStart c).toNat ≤ numBins c * c.binSize := by omega
  have h4 : c.lastFrame - firstBinStart c ≤ ((numBins c * c.binSize : ℕ) : ℤ) :=
    le_trans (Int.self_le_toNat _) (by exact_mod_cast h3)
  push_cast at h4 ⊢
  linarith

theorem numBins_pos (c : BinnerCfg) (hB : 1 ≤ c.binSize)
    (h : firstBinStart c < c.lastFrame) : 0 < numBins c := by
  have h1 : (1 : ℤ) ≤ c.lastFrame - firstBinStart c := by omega
  have h2 : 1 ≤ (c.lastFrame - firstBinStart c).toNat := by omega
  unfold numBins
  have : 1 * c.binSize ≤ (c.lastFrame - firstBinStart c).toNat + c.binSize - 1 := by omega
  exact (Nat.le_div_iff_mul_le (by omega)).mpr this

theorem start_frame_bin_1_cfg3 : start_frame_bin_1 cfg3 = 27000 := by
  have harg : floorToMinutes (frame_to_time cfg3 (cfg3.binSize : ℤ))
      (cfg3.binSize / (60 * cfg3.fps)) = 900000 := by
    norm_num [floorToMinutes, frame_to_time, bin0Timestamp, cfg3]
  unfold start_frame_bin_1 time_to_frame
  rw [harg]
  have : ((900000 : ℚ) - frame_to_time cfg3 0) / 1000 * (cfg3.fps : ℚ) = ((27000 : ℤ) : ℚ) := by
    norm_num [frame_to_time, bin0Timestamp, cfg3]
  rw [this, pyRound_intCast]

theorem start_frame_bin_1_cfgA : start_frame_bin_1 cfgA = 27000 := by
  have harg : floorToMinutes (frame_to_time cfgA (cfgA.binSize : ℤ))
      (cfgA.binSize / (60 * cfgA.fps)) = 900000 := by
    norm_num [floorToMinutes, frame_to_time, bin0Timestamp, cfgA]
  unfold start_frame_bin_1 time_to_frame
  rw [harg]
  have : ((900000 : ℚ) - frame_to_time cfgA 0) / 1000 * (cfgA.fps : ℚ) = ((27000 : ℤ) : ℚ) := by
    norm_num [frame_to_time, bin0Timestamp, cfgA]
  rw [this, pyRound_intCast]

/-- In `cfgB` the timestamp of frame 0 is 899,999 ms; flooring the reference
`1,799,999 ms` to 15 minutes gives 900,000 ms, i.e. 1 ms = 0.03 frames after
frame 0, and Python's `round(0.03)` is 0. -/
theorem start_frame_bin_1_cfgB : start_frame_bin_1 cfgB = 0 := by
  have harg : floorToMinutes (frame_to_time cfgB (cfgB.binSize : ℤ))
      (cfgB.binSize / (60 * cfgB.fps)) = 900000 := by
    norm_num [floorToMinutes, frame_to_time, bin0Timestamp, cfgB]
  unfold start_frame_bin_1 time_to_frame
  rw [harg]
  have h2 : ((900000 : ℚ) - frame_to_time cfgB 0) / 1000 * (cfgB.fps : ℚ) = 3/100 := by
    norm_num [frame_to_time, bin0Timestamp, cfgB]
  rw [h2]
  unfold pyRound
  norm_num

theorem numBins_cfg3 : numBins cfg3 = 96 := by
  unfold numBins firstBinStart
  rw [start_frame_bin_1_cfg3]
  norm_num [cfg3]
  decide

theorem numBins_cfgA : numBins cfgA = 2 := by
  unfold numBins firstBinStart
  rw [start_frame_bin_1_cfgA]
  norm_num [cfgA]
  decide

theorem numBins_cfgB : numBins cfgB = 3 := by
  unfold numBins firstBinStart
  rw [start_frame_bin_1_cfgB]
  norm_num [cfgB]
  decide


/-! ### Concrete rows of the three configurations -/

theorem rawBinStart_cfg3 (k : ℕ) : rawBinStart cfg3 k = (k : ℤ) * 27000 := by
  unfold rawBinStart firstBinStart
  rw [start_frame_bin_1_cfg3]
  norm_num [cfg3]

theorem rawBinStart_cfgA (k : ℕ) : rawBinStart cfgA k = (k : ℤ) * 27000 := by
  unfold rawBinStart firstBinStart
  rw [start_frame_bin_1_cfgA]
  norm_num [cfgA]

theorem rawBinStart_cfgB (k : ℕ) : rawBinStart cfgB k = (k : ℤ) * 27000 - 27000 := by
  unfold rawBinStart firstBinStart
  rw [start_frame_bin_1_cfgB]
  norm_num [cfgB]
  ring

theorem binFramePairs_cfgB_zero : (binFramePairs cfgB)[0]? = some (1, -1) := by
  rw [binFramePairs_getElem cfgB (by rw [numBins_cfgB]; norm_num)]
  rw [rawBinStart_cfgB 0]
  norm_num [cfgB]

theorem binFramePairs_cfgB_one : (binFramePairs cfgB)[1]? = some (1, 26999) := by
  rw [binFramePairs_getElem cfgB (by rw [numBins_cfgB]; norm_num)]
  rw [rawBinStart_cfgB 1]
  norm_num [cfgB]

theorem binFramePairs_cfg3_zero : (binFramePairs cfg3)[0]? = some (1, 26999) := by
  rw [binFramePairs_getElem cfg3 (by rw [numBins_cfg3]; norm_num)]
  rw [rawBinStart_cfg3 0]
  norm_num [cfg3]

theorem binFramePairs_cfg3_one : (binFramePairs cfg3)[1]? = some (27000, 53999) := by
  rw [binFramePairs_getElem cfg3 (by rw [numBins_cfg3]; norm_num)]
  rw [rawBinStart_cfg3 1]
  norm_num [cfg3]

theorem binFramePairs_cfg3_getLast :
    (binFramePairs cfg3).getLast? = some (2565000, 2591999) := by
  rw [List.getLast?_eq_getElem?, binFramePairs_length, numBins_cfg3]
  rw [show (96 : ℕ) - 1 = 95 from rfl]
  rw [binFramePairs_getElem cfg3 (by rw [numBins_cfg3]; norm_num)]
  rw [rawBinStart_cfg3 95]
  norm_num [cfg3]

theorem binFramePairs_cfgA_getLast :
    (binFramePairs cfgA).getLast? = some (27000, 53999) := by
  rw [List.getLast?_eq_getElem?, binFramePairs_length, numBins_cfgA]
  rw [show (2 : ℕ) - 1 = 1 from rfl]
  rw [binFramePairs_getElem cfgA (by rw [numBins_cfgA]; norm_num)]
  rw [rawBinStart_cfgA 1]
  norm_num [cfgA]


/-! ### Claim C1 -/

/-- C1 (amended): for every valid configuration, the first bin's START_FRAME
is 1; and whenever the calendar anchor `start_frame_bin_1` is at least 1 (it
can round to 0, in which case the first row of `bin_df` is a degenerate
`(1, -1)` bin and the first adjacency fails), consecutive rows of `bin_df`
satisfy `END_FRAME + 1 = next START_FRAME`. -/
theorem bin_df_first_row_and_contiguity (c : BinnerCfg) (hv : ValidCfg c)
    (hanchor : 1 ≤ start_frame_bin_1 c) :
    ((binFramePairs c)[0]?).map Prod.fst = some 1 ∧
    ∀ i p q, (binFramePairs c)[i]? = some p → (binFramePairs c)[i + 1]? = some q →
      p.2 + 1 = q.1 := by
  obtain ⟨hfps, hbin, hlast⟩ := hv
  have hB : 1 ≤ c.binSize := le_trans (by omega) hbin
  have hs_le : start_frame_bin_1 c ≤ (c.binSize : ℤ) := start_frame_bin_1_le_binSize c hfps hbin
  have hf0 : firstBinStart c ≤ 0 := by unfold firstBinStart; omega
  have hn : 0 < numBins c := numBins_pos c hB (by omega)
  constructor
  · rw [binFramePairs_getElem c hn]
    have h0 : rawBinStart c 0 = firstBinStart c := by unfold rawBinStart; ring
    rw [h0, if_neg (by omega)]
    rfl
  · intro i p q hp hq
    have hiq : i + 1 < (binFramePairs c).length := (List.getElem?_eq_some.mp hq).1
    rw [binFramePairs_length] at hiq
    have hip : i < numBins c := by omega
    rw [binFramePairs_getElem c hip] at hp
    rw [binFramePairs_getElem c hiq] at hq
    have hlt : rawBinStart c i < c.lastFrame := rawBinStart_lt_lastFrame hB hip
    have hsucc : rawBinStart c (i + 1) = rawBinStart c i + (c.binSize : ℤ) := by
      unfold rawBinStart
      push_cast
      ring
    have hpos : 0 < rawBinStart c (i + 1) := by
      have : rawBinStart c (i + 1) = start_frame_bin_1 c + (i : ℤ) * (c.binSize : ℤ) := by
        unfold rawBinStart firstBinStart
        push_cast
        ring
      have hi0 : (0 : ℤ) ≤ (i : ℤ) * (c.binSize : ℤ) := by positivity
      omega
    rw [if_pos (by omega : rawBinStart c i ≤ c.lastFrame)] at hp
    rw [if_pos hpos] at hq
    have hp2 : p.2 = rawBinStart c i + (c.binSize : ℤ) - 1 := by
      rw [← Option.some_inj.mp hp]
    have hq1 : q.1 = rawBinStart c (i + 1) := by
      rw [← Option.some_inj.mp hq]
    omega


/-! ### Claim C2 -/

/-- C2 (amended): each emitted row has `START_FRAME = max(f, 1)` but
`END_FRAME = f + bin_size - 1` with no clamping to `last_frame` (the clamp
branch `else last_frame` requires `f > last_frame`, which no enumerated `f`
satisfies); the last row's END_FRAME is only guaranteed to be
`>= last_frame - 1` and may exceed `last_frame`. -/
theorem bin_df_raw_row_shape (c : BinnerCfg) (hv : ValidCfg c) :
    (∀ k, k < numBins c →
      (binFramePairs c)[k]? =
        some (max (rawBinStart c k) 1, rawBinStart c k + (c.binSize : ℤ) - 1)) ∧
    ∀ p, (binFramePairs c).getLast? = some p → c.lastFrame - 1 ≤ p.2 := by
  obtain ⟨hfps, hbin, hlast⟩ := hv
  have hB : 1 ≤ c.binSize := le_trans (by omega) hbin
  have hs_le : start_frame_bin_1 c ≤ (c.binSize : ℤ) := start_frame_bin_1_le_binSize c hfps hbin
  have hf0 : firstBinStart c ≤ 0 := by unfold firstBinStart; omega
  have hn : 0 < numBins c := numBins_pos c hB (by omega)
  have hrow : ∀ k, k < numBins c →
      (binFramePairs c)[k]? =
        some (max (rawBinStart c k) 1, rawBinStart c k + (c.binSize : ℤ) - 1) := by
    intro k hk
    rw [binFramePairs_getElem c hk,
      if_pos (le_of_lt (rawBinStart_lt_lastFrame hB hk))]
    have : (if 0 < rawBinStart c k then rawBinStart c k else 1) = max (rawBinStart c k) 1 := by
      split_ifs with h
      · exact (max_eq_left (by omega)).symm
      · exact (max_eq_right (by omega)).symm
    rw [this]
  refine ⟨hrow, ?_⟩
  intro p hp
  rw [List.getLast?_eq_getElem?, binFramePairs_length,
    hrow (numBins c - 1) (by omega)] at hp
  have hp2 : p.2 = rawBinStart c (numBins c - 1) + (c.binSize : ℤ) - 1 := by
    rw [← Option.some_inj.mp hp]
  have hend : rawBinStart c (numBins c - 1) + (c.binSize : ℤ) =
      firstBinStart c + (numBins c : ℤ) * (c.binSize : ℤ) := by
    unfold rawBinStart
    have : ((numBins c - 1 : ℕ) : ℤ) = (numBins c : ℤ) - 1 := by
      push_cast [Nat.cast_sub hn]
      ring
    rw [this]
    ring
  have := lastFrame_le_end_of_loop c hB
  omega

/-! ### counterexamples and witnesses for C1 - C3 -/

/-- C1 counterexample: `cfgB` is a valid configuration whose anchor rounds to
frame 0; `bin_df` starts with a degenerate row `(1, -1)` and the first
adjacency `END_FRAME + 1 = next START_FRAME` fails (`0 != 1`). -/
theorem bin_df_contiguity_counterexample :
    ValidCfg cfgB ∧
    (binFramePairs cfgB)[0]? = some (1, -1) ∧
    (binFramePairs cfgB)[1]? = some (1, 26999) ∧
    (-1 : ℤ) + 1 ≠ 1 := by
  refine ⟨⟨by norm_num [cfgB], by norm_num [cfgB], by norm_num [cfgB]⟩,
    binFramePairs_cfgB_zero, binFramePairs_cfgB_one, by norm_num⟩

theorem bin_df_first_row_and_contiguity_witness :
    ((binFramePairs cfg3)[0]?).map Prod.fst = some 1 ∧ (26999 : ℤ) + 1 = 27000 := by
  have h := bin_df_first_row_and_contiguity cfg3
    ⟨by norm_num [cfg3], by norm_num [cfg3], by norm_num [cfg3]⟩
    (by rw [start_frame_bin_1_cfg3]; norm_num)
  exact ⟨h.1, h.2 0 (1, 26999) (27000, 53999) binFramePairs_cfg3_zero binFramePairs_cfg3_one⟩

/-- C2 counterexample: in `cfgA` the last row of `bin_df` is `(27000, 53999)`
although `min(27000 + 27000 - 1, 30000) = 30000`: END_FRAME is not clamped
and the last bin's END_FRAME is not the last frame of the recording. -/
theorem bin_df_end_clamp_counterexample :
    ValidCfg cfgA ∧
    (binFramePairs cfgA).getLast? = some (27000, 53999) ∧
    min (27000 + (cfgA.binSize : ℤ) - 1) cfgA.lastFrame = 30000 ∧
    (53999 : ℤ) ≠ 30000 := by
  refine ⟨⟨by norm_num [cfgA], by norm_num [cfgA], by norm_num [cfgA]⟩,
    binFramePairs_cfgA_getLast, by norm_num [cfgA], by norm_num⟩

theorem bin_df_raw_row_shape_witness :
    (binFramePairs cfgA)[0]? =
      some (max (rawBinStart cfgA 0) 1, rawBinStart cfgA 0 + (cfgA.binSize : ℤ) - 1) ∧
    cfgA.lastFrame - 1 ≤ (27000, (53999 : ℤ)).2 := by
  have h := bin_df_raw_row_shape cfgA
    ⟨by norm_num [cfgA], by norm_num [cfgA], by norm_num [cfgA]⟩
  exact ⟨h.1 0 (by rw [numBins_cfgA]; norm_num), h.2 _ binFramePairs_cfgA_getLast⟩

/-! ### Claim C3 -/

/-- C3 counterexample: on Scenario A the Bin Planner does return 96 bins with
first START_FRAME 1, but the last bin's END_FRAME is 2,591,999, not the
recording's last frame 2,592,000 (frame 2,592,000 falls exactly on a bin
boundary and the `while f < last_frame` loop stops before it). -/
theorem scenario_a_counterexample :
    (binFramePairs cfg3).length = 96 ∧
    ((binFramePairs cfg3)[0]?).map Prod.fst = some 1 ∧
    (binFramePairs cfg3).getLast? = some (2565000, 2591999) ∧
    (2591999 : ℤ) ≠ 2592000 := by
  refine ⟨by rw [binFramePairs_length, numBins_cfg3], ?_, binFramePairs_cfg3_getLast,
    by norm_num⟩
  rw [binFramePairs_cfg3_zero]
  rfl

/-- C3 (amended): Scenario A yields 96 bins, first START_FRAME 1 and last
END_FRAME 2,591,999. -/
theorem scenario_a_bins :
    (binFramePairs cfg3).length = 96 ∧
    ((binFramePairs cfg3)[0]?).map Prod.fst = some 1 ∧
    ((binFramePairs cfg3).getLast?).map Prod.snd = some 2591999 := by
  refine ⟨by rw [binFramePairs_length, numBins_cfg3], ?_, ?_⟩
  · rw [binFramePairs_cfg3_zero]
    rfl
  · rw [binFramePairs_cfg3_getLast]
    rfl


theorem chunkLoop_flatten (cs : ℤ) (l : List (ℤ × ℤ)) :
    ∀ (st : ℤ) (cur : List (ℤ × ℤ)), (chunkLoop cs st cur l).flatten = cur ++ l := by
  induction l with
  | nil => intro st cur; simp [chunkLoop]
  | cons b rest ih =>
    intro st cur
    unfold chunkLoop
    split_ifs
    · rw [ih]
      simp
    · simp only [List.flatten_cons, ih]
      simp

/-- C4: the chunks produced by `split_iterator_in_chunks` partition the input
bin sequence exactly: concatenating all chunks in order reproduces the
original non-empty bin iterator, with nothing duplicated, omitted, split or
reordered. -/
theorem split_iterator_in_chunks_partition (chunk_size : ℤ) (b : ℤ × ℤ)
    (rest : List (ℤ × ℤ)) :
    (split_iterator_in_chunks chunk_size (b :: rest)).flatten = b :: rest := by
  unfold split_iterator_in_chunks
  rw [chunkLoop_flatten]
  rfl

theorem mem_of_getLast?_eq {α : Type} {l : List α} {a : α} (h : l.getLast? = some a) :
    a ∈ l := by
  obtain ⟨hne, rfl⟩ := List.mem_getLast?_eq_getLast (show a ∈ l.getLast? from h)
  exact List.getLast_mem hne

/-- Invariant of the chunk loop: in the chunk being filled, every bin after
the first was appended under the guard `bin[1] - chunk_start + 1 < chunk_size`,
and `chunk_start` is the first bin's start. -/
theorem chunkLoop_span_inv (cs : ℤ) (l : List (ℤ × ℤ)) :
    ∀ (st : ℤ) (cur : List (ℤ × ℤ)), cur ≠ [] →
    (∀ p, cur.head? = some p → p.1 = st) →
    (∀ x ∈ cur.tail, x.2 - st + 1 < cs) →
    ∀ chunk ∈ chunkLoop cs st cur l, 1 < chunk.length →
    ∀ p q, chunk.head? = some p → chunk.getLast? = some q → q.2 - p.1 + 1 < cs := by
  induction l with
  | nil =>
    intro st cur hne hhd htl chunk hmem hlen p q hp hq
    rw [show chunkLoop cs st cur [] = [cur] from rfl, List.mem_singleton] at hmem
    subst hmem
    match chunk, hlen with
    | x :: y :: tl, _ =>
      rw [List.getLast?_cons_cons] at hq
      have hqmem : q ∈ y :: tl := mem_of_getLast?_eq hq
      have hpx : x = p := by simpa using hp
      have hq2 := htl q (by simpa using hqmem)
      have hx1 : x.1 = st := hhd x rfl
      have hp1 : p.1 = st := by rw [← hpx]; exact hx1
      omega
  | cons b rest ih =>
    intro st cur hne hhd htl chunk hmem hlen p q hp hq
    unfold chunkLoop at hmem
    split_ifs at hmem with hguard
    · match cur, hne with
      | c0 :: ctl, _ =>
        refine ih st ((c0 :: ctl) ++ [b]) (by simp) ?_ ?_ chunk hmem hlen p q hp hq
        · intro r hr
          exact hhd r (by simpa using hr)
        · intro x hx
          rw [List.cons_append, List.tail_cons] at hx
          rcases List.mem_append.mp hx with h | h
          · exact htl x h
          · rw [List.mem_singleton] at h
            subst h
            exact hguard
    · rcases List.mem_cons.mp hmem with h | h
      · subst h
        match chunk, hlen with
        | x :: y :: tl, _ =>
          rw [List.getLast?_cons_cons] at hq
          have hqmem : q ∈ y :: tl := mem_of_getLast?_eq hq
          have hpx : x = p := by simpa using hp
          have hq2 := htl q (by simpa using hqmem)
          have hx1 : x.1 = st := hhd x rfl
          have hp1 : p.1 = st := by rw [← hpx]; exact hx1
          omega
      · refine ih b.1 [b] (by simp) ?_ ?_ chunk h hlen p q hp hq
        · intro r hr
          have : b = r := by simpa using hr
          rw [← this]
        · intro x hx
          simp at hx

/-- C5: every chunk produced by `split_iterator_in_chunks` that contains more
than one bin has frame span `endFrame - startFrame + 1 < chunk_size` (a chunk
whose head and last bins are `p` and `q` spans `q.2 - p.1 + 1`). -/
theorem chunk_span_bound (chunk_size : ℤ) (b : ℤ × ℤ) (rest : List (ℤ × ℤ))
    (chunk : List (ℤ × ℤ))
    (hmem : chunk ∈ split_iterator_in_chunks chunk_size (b :: rest))
    (hlen : 1 < chunk.length)
    (p q : ℤ × ℤ) (hp : chunk.head? = some p) (hq : chunk.getLast? = some q) :
    q.2 - p.1 + 1 < chunk_size := by
  refine chunkLoop_span_inv chunk_size rest b.1 [b] (by simp) ?_ ?_ chunk hmem hlen p q hp hq
  · intro r hr
    have : b = r := by simpa using hr
    rw [← this]
  · intro x hx
    simp at hx

theorem chunk_span_bound_witness :
    ((4 : ℤ), (5 : ℤ)).2 - ((1 : ℤ), (3 : ℤ)).1 + 1 < 10 := by
  refine chunk_span_bound 10 (1, 3) [(4, 5)] [(1, 3), (4, 5)] ?_ (by norm_num)
    (1, 3) (4, 5) rfl rfl
  show [(1, 3), (4, 5)] ∈ chunkLoop 10 1 [(1, 3)] [(4, 5)]
  simp [chunkLoop]


/-! ## Clock round trip (claim C6) -/

/-- C6: for every frame `f` in `[1, lastFrame]` and `fps >= 1`, the Clock
conversions compose exactly in the rational model:
`time_to_frame (frame_to_time f) = f` — in particular within the claimed
one-frame tolerance. -/
theorem clock_round_trip (c : BinnerCfg) (f : ℤ) (hfps : 1 ≤ c.fps)
    (_h1 : 1 ≤ f) (_h2 : f ≤ c.lastFrame) :
    time_to_frame c (frame_to_time c f) = f := by
  have hfpsQ : ((c.fps : ℚ)) ≠ 0 := by
    have : (0 : ℚ) < (c.fps : ℚ) := by exact_mod_cast hfps
    exact ne_of_gt this
  unfold time_to_frame
  have harg : (frame_to_time c f - frame_to_time c 0) / 1000 * (c.fps : ℚ) = ((f : ℤ) : ℚ) := by
    rw [frame_to_time_sub_zero]
    field_simp
    ring
  rw [harg, pyRound_intCast]

theorem clock_round_trip_witness :
    time_to_frame cfg3 (frame_to_time cfg3 12345) = 12345 :=
  clock_round_trip cfg3 12345 (by norm_num [cfg3]) (by norm_num) (by norm_num [cfg3])


/-- C7 counterexample: a window `start_frame = 0` lies outside
`[1, lastFrame]`, yet `set_parameters` does not raise: it silently clamps the
start to 1 and succeeds. -/
theorem window_validation_counterexample :
    validateFrameLimits 100 (some 0) none = some (1, 100) ∧ ¬ (1 ≤ (0 : ℤ)) :=
  ⟨rfl, by norm_num⟩

/-- C7 (amended): `set_parameters` raises on the window exactly when the
given start exceeds `lastFrame` (and is not clamped, i.e. `>= 1`), or the
given end is `<= lastFrame` but `< 1`, or the normalised start is `>=` the
normalised end.  A window start `< 1` is clamped to 1, never an error. -/
theorem window_validation_errors_iff (lastFrame : ℤ) (sf ef : Option ℤ) :
    validateFrameLimits lastFrame sf ef = none ↔
      ((∃ s, sf = some s ∧ 1 ≤ s ∧ lastFrame < s) ∨
       (∃ e, ef = some e ∧ e ≤ lastFrame ∧ e < 1) ∨
       normEnd lastFrame ef ≤ normStart sf) := by
  rcases sf with _ | s <;> rcases ef with _ | e <;>
    simp only [validateFrameLimits, normStart, normEnd] <;>
    split_ifs <;>
    simp_all <;>
    omega



/-- C8 counterexample: a 27,000-frame bin whose summed Stop and Move event
durations exceed the bin span yields a negative UNDETECTED_DURATION; nothing
clamps it to zero and no warning path exists, the negative value is emitted. -/
theorem undetected_duration_counterexample :
    undetected_duration 1 27000 20000 10000 0 < 0 := by
  norm_num [undetected_duration]

/-- C8 (amended): UNDETECTED_DURATION is emitted as
`(binEnd - binStart - stopDur - moveDur) / 30 / 60` unchanged; it is negative
exactly when the summed durations exceed `binEnd - binStart`. -/
theorem undetected_duration_neg_iff (binStart binEnd stopDur moveIsoDur moveIncDur : ℤ) :
    undetected_duration binStart binEnd stopDur moveIsoDur moveIncDur < 0 ↔
      binEnd - binStart < stopDur + moveIsoDur + moveIncDur := by
  unfold undetected_duration
  rw [div_div, div_lt_iff₀ (by norm_num : (0 : ℚ) < 30 * 60), zero_mul, Int.cast_lt_zero]
  omega


/-- C9 counterexample: with HUMIDITY and SOUND both unavailable (adjacent in
the sensors list), the in-place removal skips SOUND, the row construction
looks SOUND up in `sensors_data` and raises `KeyError`: the remaining
sensors' rows are not produced, instead of omitting the missing columns. -/
theorem get_df_sensors_counterexample :
    get_df_sensors dataTwoMissing = SensorsOutcome.keyError ∧
    (dataTwoMissing "TEMPERATURE").isSome = true := by
  constructor
  · rfl
  · rfl

theorem removeMissingSensors_eq_filter (avail : String → Bool) :
    ∀ (l : List String), noTwoAdjacentMissing avail l = true →
      removeMissingSensors avail l = List.filter avail l
  | [] => fun _ => rfl
  | [x] => by
    intro _
    cases h : avail x <;> simp [removeMissingSensors, List.filter, h]
  | x :: y :: rest => by
    intro hchain
    rw [noTwoAdjacentMissing, Bool.and_eq_true, Bool.or_eq_true] at hchain
    cases hx : avail x with
    | true =>
      have ih := removeMissingSensors_eq_filter avail (y :: rest) hchain.2
      simp only [removeMissingSensors, hx, if_true, ih, List.filter, List.filter_cons]
    | false =>
      have hy : avail y = true := by
        rcases hchain.1 with h | h
        · rw [hx] at h
          exact absurd h (by simp)
        · exact h
      have hrest : noTwoAdjacentMissing avail rest = true := by
        cases rest with
        | nil => rfl
        | cons z tl =>
          have h2 := hchain.2
          rw [noTwoAdjacentMissing, Bool.and_eq_true] at h2
          exact h2.2
      have ih := removeMissingSensors_eq_filter avail rest hrest
      simp only [removeMissingSensors, hx, Bool.false_eq_true, if_false, ih]
      simp [List.filter_cons, hx, hy]

theorem mapM_sensor_lookup {α : Type} (data : String → Option α) :
    ∀ (l : List String), (∀ s ∈ l, (data s).isSome) →
      ∃ cols, l.mapM (fun s => (data s).map (fun v => (s, v))) = some cols ∧
        cols.map Prod.fst = l := by
  intro l
  induction l with
  | nil => intro _; exact ⟨[], rfl, rfl⟩
  | cons s tl ih =>
    intro h
    obtain ⟨v, hv⟩ := Option.isSome_iff_exists.mp (h s (by simp))
    obtain ⟨cols, hcols, hfst⟩ := ih (fun x hx => h x (by simp [hx]))
    refine ⟨(s, v) :: cols, ?_, by simp [hfst]⟩
    rw [List.mapM_cons, hv, hcols]
    rfl

/-- C9 (amended): for every `data` query, the table degrades to the explicit
"not available" result exactly when no sensor at all is available; and
provided no two adjacent sensors of the fixed sensor list are both
unavailable, the per-bin sensor columns are emitted and consist of exactly
the available sensors in order — each unavailable sensor's columns are
omitted, not zero-filled.  (The counterexample shows the adjacency proviso is
necessary: two adjacent unavailable sensors crash the row construction with
`KeyError` instead.) -/
theorem get_df_sensors_omission {α : Type} (data : String → Option α) :
    (get_df_sensors data = SensorsOutcome.unavailable ↔
      ∀ s ∈ sensors_init, data s = none) ∧
    (noTwoAdjacentMissing (fun s => (data s).isSome) sensors_init = true →
      (∃ s ∈ sensors_init, (data s).isSome) →
      ∃ cols, get_df_sensors data = SensorsOutcome.rows cols ∧
        cols.map Prod.fst = sensors_init.filter (fun s => (data s).isSome)) := by
  constructor
  · unfold get_df_sensors
    split_ifs with hall
    · simp only [List.all_eq_true] at hall
      simp only [true_iff]
      intro s hs
      exact Option.eq_none_iff_forall_not_mem.mpr
        (fun v hv => by simp [Option.isNone_iff_eq_none.mp (hall s hs)] at hv)
    · constructor
      · intro h
        exact absurd h (by
          cases hm : (removeMissingSensors (fun s => (data s).isSome) sensors_init).mapM
              (fun s => (data s).map (fun v => (s, v))) <;> simp [hm])
      · intro h
        refine absurd (List.all_eq_true.mpr (fun s hs => ?_)) hall
        simp [h s hs]
  · intro hchain hex
    have hnall : ¬ sensors_init.all (fun s => (data s).isNone) = true := by
      simp only [List.all_eq_true]
      intro hall
      obtain ⟨s, hs, hsome⟩ := hex
      have := hall s hs
      simp [Option.isNone_iff_eq_none.mp this] at hsome
    have hfilter := removeMissingSensors_eq_filter (fun s => (data s).isSome)
      sensors_init hchain
    obtain ⟨cols, hcols, hfst⟩ := mapM_sensor_lookup data
      (sensors_init.filter (fun s => (data s).isSome))
      (fun x hx => (List.mem_filter.mp hx).2)
    refine ⟨cols, ?_, hfst⟩
    unfold get_df_sensors
    rw [if_neg hnall, hfilter, hcols]

theorem get_df_sensors_omission_witness :
    get_df_sensors dataAllMissing = SensorsOutcome.unavailable ∧
    ∃ cols, get_df_sensors dataOneMissing = SensorsOutcome.rows cols ∧
      cols.map Prod.fst = sensors_init.filter (fun s => (dataOneMissing s).isSome) := by
  constructor
  · exact (get_df_sensors_omission dataAllMissing).1.mpr (fun s _ => rfl)
  · exact (get_df_sensors_omission dataOneMissing).2 (by rfl)
      ⟨"TEMPERATURE", by simp [sensors_init], by rfl⟩


/-- C10: whenever the loop assigns exactly one sample `v` to a bin, that
bin's statistics report STD and SEM as exactly 0 (not NaN), and MEAN, MIN
and MAX all equal `v`. -/
theorem single_sample_bin_stats (npStd npSem : List ℚ → ℚ)
    (samples : List (ℤ × ℚ)) (bins : List (ℤ × ℤ))
    (slices : List (List ℚ)) (i : ℕ) (v : ℚ)
    (hs : binSlices samples bins = some slices)
    (hi : slices[i]? = some [v]) :
    ∃ rows, calculate_sensors_statistics npStd npSem samples bins = some rows ∧
      rows[i]? = some ⟨v, v, v, 0, 0⟩ := by
  refine ⟨slices.map (sensorStats npStd npSem), ?_, ?_⟩
  · rw [calculate_sensors_statistics, hs]
    rfl
  · rw [List.getElem?_map, hi]
    simp [sensorStats, List.min?, List.max?]

theorem single_sample_bin_stats_witness :
    ∃ rows, calculate_sensors_statistics (fun _ => 0) (fun _ => 0)
        [((10 : ℤ), (7 : ℚ))] [((1 : ℤ), (9 : ℤ))] = some rows ∧
      rows[0]? = some ⟨7, 7, 7, 0, 0⟩ := by
  refine single_sample_bin_stats (fun _ => 0) (fun _ => 0)
    [((10 : ℤ), (7 : ℚ))] [((1 : ℤ), (9 : ℤ))] [[(7 : ℚ)]] 0 7 ?_ rfl
  rfl

end LMT